import Mathlib

/-!
Verification development for the Layer-1 prompt-expansion service.

The definitions below are a shallow embedding of the two Python modules
`prompt_analysis_engine.py` and `api_implementation.py`: pydantic models become
structures, the retry loop of `analyze_prompt` becomes a recursion over the
attempt indices `List.range (max_retries + 1)`, the FastAPI handler
`send_message` becomes a pure function from the fetched conversation state to
either an API error or the response together with the ordered list of states
persisted during the request.  The external `ConversationManager` (module
`core.conversation_manager`, not among the sources) is modelled from the spec
where noted.
-/

/-! ## Data model of the analysis engine (`prompt_analysis_engine.py`) -/

/-- Embeds pydantic model `Entity`: name, type, description, confidence. -/
structure Entity where
  name : String
  type : String
  description : String
  confidence : ℚ
  deriving DecidableEq, Repr

/-- Embeds pydantic model `MissingInfo`: question, context, priority (1-5),
related entity names. -/
structure MissingInfo where
  question : String
  context : String
  priority : Nat
  related_entities : List String
  deriving DecidableEq, Repr

/-- Embeds pydantic model `TechnicalTerm`. -/
structure TechnicalTerm where
  layman_term : String
  technical_equivalent : String
  explanation : String
  confidence : ℚ
  deriving DecidableEq, Repr

/-- Embeds pydantic model `AnalysisResult`.  The Python `requirements` field is
a `Dict[str, List[str]]`; a Python dict is insertion ordered with distinct
keys, embedded here as an association list in insertion order. -/
structure AnalysisResult where
  entities : List Entity
  missing_info : List MissingInfo
  technical_terms : List TechnicalTerm
  requirements : List (String × List String)
  intent : String
  confidence : ℚ
  deriving DecidableEq, Repr

/-- The pydantic field constraints of `AnalysisResult` (`ge`/`le` bounds on
confidences and priorities): what "schema-valid" means for a parsed result. -/
def schemaValid (r : AnalysisResult) : Prop :=
  (∀ e ∈ r.entities, 0 ≤ e.confidence ∧ e.confidence ≤ 1) ∧
  (∀ m ∈ r.missing_info, 1 ≤ m.priority ∧ m.priority ≤ 5) ∧
  (∀ t ∈ r.technical_terms, 0 ≤ t.confidence ∧ t.confidence ≤ 1) ∧
  (0 ≤ r.confidence ∧ r.confidence ≤ 1)

/-! ## Structured extraction pipeline (`PromptAnalysisEngine.analyze_prompt`) -/

/-- Outcome of one attempt of the retry loop of `analyze_prompt`.  One attempt
runs the LLM chain and then parses (direct parse, falling back to the fixing
parser); `ok r` means some parse of the attempt succeeded with the schema-valid
result `r`, `err msg` means the attempt raised and the loop recorded
`msg` (the formatted "Analysis attempt i+1 failed: ..." message). -/
inductive AttemptOutcome where
  | ok (r : AnalysisResult)
  | err (msg : String)
  deriving Repr

/-- Whether the attempt parsed successfully. -/
def AttemptOutcome.isOk : AttemptOutcome → Bool
  | .ok _ => true
  | .err _ => false

/-- The recorded error message of a failed attempt (`""` for a success). -/
def AttemptOutcome.msg : AttemptOutcome → String
  | .ok _ => ""
  | .err m => m

/-- Errors raised by `analyze_prompt`: the `ValueError("Empty prompt provided")`
guard, and the `ValueError` raised after the retry budget is spent, carrying
the accumulated per-attempt error messages. -/
inductive AnalysisError where
  | emptyPrompt
  | analysisFailure (errors : List String)
  deriving DecidableEq, Repr

/-- The body of `for attempt in range(self.max_retries + 1)` in
`analyze_prompt`: on a successful parse the loop breaks with the result; on a
failed attempt the error message is appended and, when `attempt ==
max_retries`, the accumulated errors are raised.  Falling off the end of the
loop without a break corresponds to Python's final
`return cast(AnalysisResult, None)`, embedded as `.ok none` (provably
unreachable when started on the full range). -/
def analyzeGo (outcome : Nat → AttemptOutcome) (max_retries : Nat) :
    List Nat → List String → Except AnalysisError (Option AnalysisResult)
  | [], _ => .ok none
  | attempt :: rest, errors =>
    match outcome attempt with
    | .ok r => .ok (some r)
    | .err m =>
      let errors' := errors ++ [m]
      if attempt = max_retries then .error (.analysisFailure errors')
      else analyzeGo outcome max_retries rest errors'

/-- The guard `if not user_prompt.strip()` of `analyze_prompt`: Python's
`strip()` yields the empty string exactly when every character of the input is
whitespace (vacuously for the empty string). -/
def stripEmpty (s : String) : Bool := s.data.all Char.isWhitespace

/-- Embeds `PromptAnalysisEngine.analyze_prompt`.  `outcome i` is the result of
the `i`-th attempt (chain run plus parsing) against the nondeterministic LLM
backend; the whitespace guard mirrors `if not user_prompt.strip()`. -/
def analyze_prompt (outcome : Nat → AttemptOutcome) (max_retries : Nat)
    (user_prompt : String) : Except AnalysisError (Option AnalysisResult) :=
  if stripEmpty user_prompt then .error .emptyPrompt
  else analyzeGo outcome max_retries (List.range (max_retries + 1)) []

/-! ## `prioritize_missing_info`

The Python code is `sorted(result.missing_info, key=lambda x: x.priority,
reverse=True)`.  Python's `sorted` is a stable sort, and with `reverse=True`
equal-key elements still keep their original relative order; the unique such
ordering is computed here by insertion sort that inserts each element before
the first element of priority less than or equal to its own. -/

/-- Insert `x` into `l`, skipping the elements of strictly greater priority. -/
def insertByPriority (x : MissingInfo) : List MissingInfo → List MissingInfo
  | [] => [x]
  | y :: ys => if x.priority < y.priority then y :: insertByPriority x ys else x :: y :: ys

/-- Stable descending insertion sort on priority. -/
def sortByPriorityDesc : List MissingInfo → List MissingInfo
  | [] => []
  | x :: xs => insertByPriority x (sortByPriorityDesc xs)

/-- Embeds `PromptAnalysisEngine.prioritize_missing_info`. -/
def prioritize_missing_info (result : AnalysisResult) : List MissingInfo :=
  sortByPriorityDesc result.missing_info

/-! ## `extract_requirements_by_type` -/

/-- Embeds enum `RequirementType`. -/
inductive RequirementType where
  | FUNCTIONAL
  | NON_FUNCTIONAL
  | CONSTRAINT
  | UNKNOWN
  deriving DecidableEq, Repr

/-- Embeds the Python `RequirementType(req_type)` constructor-by-value:
`some` on the four enum values, `none` models the `ValueError` branch. -/
def requirementTypeOf (s : String) : Option RequirementType :=
  if s = "functional" then some .FUNCTIONAL
  else if s = "non-functional" then some .NON_FUNCTIONAL
  else if s = "constraint" then some .CONSTRAINT
  else if s = "unknown" then some .UNKNOWN
  else none

/-- The `typed_requirements` dictionary with its four fixed keys. -/
structure TypedRequirements where
  functional : List String
  non_functional : List String
  constraint : List String
  unknown : List String
  deriving DecidableEq, Repr

/-- Embeds `PromptAnalysisEngine.extract_requirements_by_type`: iterate the
`requirements` dict in insertion order; a recognized category label ASSIGNS
its bucket (`typed_requirements[typed_key] = reqs`), an unrecognized label
EXTENDS the unknown bucket
(`typed_requirements[RequirementType.UNKNOWN].extend(reqs)`). -/
def extract_requirements_by_type (result : AnalysisResult) : TypedRequirements :=
  result.requirements.foldl
    (fun acc kv =>
      match requirementTypeOf kv.1 with
      | some .FUNCTIONAL => { acc with functional := kv.2 }
      | some .NON_FUNCTIONAL => { acc with non_functional := kv.2 }
      | some .CONSTRAINT => { acc with constraint := kv.2 }
      | some .UNKNOWN => { acc with unknown := kv.2 }
      | none => { acc with unknown := acc.unknown ++ kv.2 })
    ⟨[], [], [], []⟩

/-! ## Data model of the API layer (`api_implementation.py`) -/

/-- Embeds `ConversationStage` from `core.models.conversation`
(the four canonical stages used by `api_implementation.py`). -/
inductive ConversationStage where
  | COLLECTING
  | CLARIFYING
  | GENERATING
  | COMPLETED
  deriving DecidableEq, Repr

/-- Embeds `ConversationState` as used by `api_implementation.py`: identity and
owner, stage, the open-question queue, the message log, recorded
(question, answer) pairs, the analysis flags and the nullable `spec_id`. -/
structure ConversationState where
  id : String
  user_id : String
  stage : ConversationStage
  initial_prompt : String
  project_name : Option String
  analyzed : Bool
  analysis_result : Option AnalysisResult
  open_questions : List String
  message_log : List String
  answers : List (String × String)
  spec_id : Option String
  deriving DecidableEq, Repr

/-- Embeds `ProjectSpecification` as constructed by `generate_specification`
(`id`, `user_id`, `project_name`, `content`, `version`; the timestamp carries
no information used by any claim and is omitted). -/
structure ProjectSpecification where
  id : String
  user_id : String
  project_name : String
  content : String
  version : Nat
  deriving DecidableEq, Repr

/-- The distinct caller-visible failures of the API handlers.  `notFound` and
`forbidden` are the 404/403 raised BEFORE the handler's `try` block;
`internalError` is the 500 produced by the blanket `except Exception` around
the handler body (which also swallows and re-raises, as 500, the
`HTTPException`s raised inside the body, such as the unguarded
`open_questions[0]` `IndexError`, the invalid-stage 400 and the
missing-specification 404 of the COMPLETED branch). -/
inductive ApiError where
  | notFound
  | forbidden
  | internalError
  deriving DecidableEq, Repr

/-- Embeds response model `ConversationResponse`. -/
structure ConversationResponse where
  conversation_id : String
  message : String
  stage : ConversationStage
  awaiting_user : Bool
  spec_ready : Bool
  spec_id : Option String
  deriving DecidableEq, Repr

/-- Embeds response model `SpecificationResponse` (content and timestamp fields
carry no claim-relevant information beyond the spec record itself). -/
structure SpecificationResponse where
  spec_id : String
  project_name : String
  version : Nat
  deriving DecidableEq, Repr

/-- The observable effect of one `send_message` request: the HTTP response,
the ordered list of conversation states persisted to the store during the
request (each `ConversationManager` write), the specifications saved to the
repository, and the final value of the handler's conversation object. -/
structure SendResult where
  response : ConversationResponse
  writes : List ConversationState
  savedSpecs : List ProjectSpecification
  final : ConversationState
  deriving DecidableEq, Repr

/-- Modelled from the spec: `ConversationManager.add_user_message` is in
`core.conversation_manager`, which is not among the sources.  The spec's
transition table says a COLLECTING message is "append to message log"; the
model appends the message and keeps the handler's conversation object and the
store in sync. -/
def add_user_message (c : ConversationState) (msg : String) : ConversationState :=
  { c with message_log := c.message_log ++ [msg] }

/-- Modelled from the spec: `ConversationManager.answer_question` is in
`core.conversation_manager`, which is not among the sources.  The spec's
transition table says answering the current question is "record
(question, answer) pair; pop question from queue". -/
def answer_question (c : ConversationState) (question answer : String) : ConversationState :=
  { c with answers := c.answers ++ [(question, answer)],
           open_questions := c.open_questions.tail }

/-- Embeds `generate_specification` (the Assembly Orchestrator): enrichment and
synthesis are external collaborators whose produced payload is the opaque
`content` argument; `fresh_id` stands for the freshly drawn `str(uuid.uuid4())`;
the project name defaults exactly as in the source and the version is 1.
The constructed specification is saved to the repository by the caller-visible
`savedSpecs` trace. -/
def generate_specification (c : ConversationState) (fresh_id content : String) :
    ProjectSpecification :=
  { id := fresh_id
    user_id := c.user_id
    project_name := c.project_name.getD "Untitled Project"
    content := content
    version := 1 }

/-- The attach sequence of `send_message` right after `generate_specification`
returns (`conversation.spec_id = spec.id; conversation.stage = COMPLETED`),
packaged as one step so that triggering the Assembly Orchestrator on a
conversation can be iterated. -/
def triggerAssembly (c : ConversationState) (fresh_id content : String) :
    ProjectSpecification × ConversationState :=
  let spec := generate_specification c fresh_id content
  (spec, { c with spec_id := some spec.id, stage := ConversationStage.COMPLETED })

/-- Embeds the `send_message` handler.  `conv?` is the result of
`conversation_manager.get_conversation(conversation_id)`; `repo` is
`spec_repository.get_specification`; `fresh_id` and `content` feed
`generate_specification` when the handler reaches it.  The 404/403 guards
precede the `try` block; inside it the handler branches on the stored stage
exactly as the source does, and every state persisted through the manager is
recorded in `writes` in order. -/
def send_message (user : String) (conv? : Option ConversationState) (msg : String)
    (fresh_id content : String) (repo : String → Option ProjectSpecification) :
    Except ApiError SendResult :=
  match conv? with
  | none => .error .notFound
  | some conversation =>
    if conversation.user_id ≠ user then .error .forbidden
    else
      match conversation.stage with
      | .COLLECTING =>
        let c1 := add_user_message conversation msg
        match c1.open_questions with
        | next_question :: _ =>
          let c2 := { c1 with stage := ConversationStage.CLARIFYING }
          .ok { response :=
                  { conversation_id := conversation.id
                    message := next_question
                    stage := c2.stage
                    awaiting_user := true
                    spec_ready := false
                    spec_id := none }
                writes := [c1, c2]
                savedSpecs := []
                final := c2 }
        | [] =>
          let c2 := { c1 with stage := ConversationStage.GENERATING }
          let spec := generate_specification c2 fresh_id content
          let c3 := { c2 with spec_id := some spec.id, stage := ConversationStage.COMPLETED }
          .ok { response :=
                  { conversation_id := conversation.id
                    message := "specification completed"
                    stage := ConversationStage.COMPLETED
                    awaiting_user := false
                    spec_ready := true
                    spec_id := some spec.id }
                writes := [c1, c2, c3]
                savedSpecs := [spec]
                final := c3 }
      | .CLARIFYING =>
        match conversation.open_questions with
        | [] => .error .internalError
        | current_question :: rest =>
          let c1 := answer_question conversation current_question msg
          match rest with
          | next_question :: _ =>
            .ok { response :=
                    { conversation_id := conversation.id
                      message := next_question
                      stage := c1.stage
                      awaiting_user := true
                      spec_ready := false
                      spec_id := none }
                  writes := [c1]
                  savedSpecs := []
                  final := c1 }
          | [] =>
            let c2 := { c1 with stage := ConversationStage.GENERATING }
            let spec := generate_specification c2 fresh_id content
            let c3 := { c2 with spec_id := some spec.id, stage := ConversationStage.COMPLETED }
            .ok { response :=
                    { conversation_id := conversation.id
                      message := "specification completed"
                      stage := ConversationStage.COMPLETED
                      awaiting_user := false
                      spec_ready := true
                      spec_id := some spec.id }
                  writes := [c1, c2, c3]
                  savedSpecs := [spec]
                  final := c3 }
      | .COMPLETED =>
        match conversation.spec_id.bind repo with
        | none => .error .internalError
        | some spec =>
          .ok { response :=
                  { conversation_id := conversation.id
                    message := "specification is complete"
                    stage := conversation.stage
                    awaiting_user := false
                    spec_ready := true
                    spec_id := some spec.id }
                writes := []
                savedSpecs := []
                final := conversation }
      | .GENERATING => .error .internalError

/-- Embeds the `get_specification` handler: 404 when the repository lookup
fails, 403 when the stored owner differs from the caller. -/
def get_specification (user : String) (spec? : Option ProjectSpecification) :
    Except ApiError SpecificationResponse :=
  match spec? with
  | none => .error .notFound
  | some spec =>
    if spec.user_id ≠ user then .error .forbidden
    else .ok { spec_id := spec.id
               project_name := spec.project_name
               version := spec.version }

/-- Embeds the background task `analyze_initial_prompt` on the success path of
the extraction: when the conversation exists, it marks it analyzed, stores the
analysis, installs the prioritized questions as `open_questions` and sets the
stage to CLARIFYING, then persists; `none` is the missing-conversation early
return (on an extraction failure the task logs and persists nothing, so the
claims about the update concern only this success path). -/
def analyze_initial_prompt (conv? : Option ConversationState) (analysis : AnalysisResult) :
    Option ConversationState :=
  match conv? with
  | none => none
  | some c => some
      { c with analyzed := true
               analysis_result := some analysis
               open_questions := (prioritize_missing_info analysis).map (fun i => i.question)
               stage := ConversationStage.CLARIFYING }

/-- The spec invariant: `stage == COMPLETED` iff `spec_id` is non-null. -/
def specInvariant (c : ConversationState) : Prop :=
  c.stage = ConversationStage.COMPLETED ↔ c.spec_id.isSome = true

instance (c : ConversationState) : Decidable (specInvariant c) :=
  inferInstanceAs
    (Decidable (c.stage = ConversationStage.COMPLETED ↔ c.spec_id.isSome = true))

/-- Feed `n` consecutive user messages into `send_message` (each with the same
answer text and fresh-id source), following the handler's final conversation
object between requests. -/
def drain (user answer fresh_id content : String)
    (repo : String → Option ProjectSpecification) :
    Nat → ConversationState → Except ApiError ConversationState
  | 0, c => .ok c
  | n + 1, c =>
    match send_message user (some c) answer fresh_id content repo with
    | .ok res => drain user answer fresh_id content repo n res.final
    | .error e => .error e

/-! ## Concrete states used by counterexamples and witnesses -/

/-- An attempt oracle whose every attempt fails. -/
def outcomeAllFail : Nat → AttemptOutcome := fun _ => .err "boom"

/-- An extraction result with no missing-information items. -/
def resEmpty : AnalysisResult :=
  { entities := []
    missing_info := []
    technical_terms := []
    requirements := []
    intent := ""
    confidence := 0 }

/-- The `requirements` dict `{"weird": ["a"], "unknown": ["b"]}`: an
unrecognized label followed by the literal `unknown` label. -/
def resWeird : AnalysisResult :=
  { entities := []
    missing_info := []
    technical_terms := []
    requirements := [("weird", ["a"]), ("unknown", ["b"])]
    intent := ""
    confidence := 0 }

/-- A freshly created conversation: COLLECTING, extraction not yet completed,
no questions, no specification. -/
def convCollecting : ConversationState :=
  { id := "conv-1"
    user_id := "alice"
    stage := ConversationStage.COLLECTING
    initial_prompt := "I want a site where users upload and share photos."
    project_name := some "PhotoShare"
    analyzed := false
    analysis_result := none
    open_questions := []
    message_log := []
    answers := []
    spec_id := none }

/-- A completed conversation with its specification attached. -/
def convCompleted : ConversationState :=
  { convCollecting with
      stage := ConversationStage.COMPLETED
      analyzed := true
      spec_id := some "spec-0" }

/-- A clarifying conversation whose question queue is empty (the state
`analyze_initial_prompt` produces when extraction finds nothing missing). -/
def convClarifyEmpty : ConversationState :=
  { convCollecting with
      stage := ConversationStage.CLARIFYING
      analyzed := true
      open_questions := [] }

/-- A clarifying conversation with two pending questions. -/
def convClarifyTwo : ConversationState :=
  { convCollecting with
      stage := ConversationStage.CLARIFYING
      analyzed := true
      open_questions := ["q1", "q2"] }

/-- A conversation about to generate (the state on the GENERATING edge). -/
def convGenerating : ConversationState :=
  { convCollecting with
      stage := ConversationStage.GENERATING
      analyzed := true }

/-- A stored specification owned by `bob`. -/
def specOfBob : ProjectSpecification :=
  { id := "spec-9"
    user_id := "bob"
    project_name := "PhotoShare"
    content := "content"
    version := 1 }

/-- A repository with no specifications. -/
def emptyRepo : String → Option ProjectSpecification := fun _ => none

/-- The specification attached to `convCompleted`. -/
def specZero : ProjectSpecification :=
  { id := "spec-0"
    user_id := "alice"
    project_name := "PhotoShare"
    content := "content"
    version := 1 }

/-- A repository holding exactly `specZero`. -/
def repoWithSpecZero : String → Option ProjectSpecification :=
  fun sid => if sid = "spec-0" then some specZero else none

/-! ## Lemmas about the extraction retry loop -/

/-- When every attempt in the remaining consecutive range fails, the loop
raises the accumulated messages of all of them. -/
theorem analyzeGo_all_err (outcome : Nat → AttemptOutcome) (max_retries : Nat) :
    ∀ n a errors, a + n = max_retries + 1 → a ≤ max_retries →
      (∀ i, a ≤ i → i ≤ max_retries → (outcome i).isOk = false) →
      analyzeGo outcome max_retries (List.range' a n) errors =
        .error (.analysisFailure
          (errors ++ (List.range' a n).map fun i => (outcome i).msg)) := by
  intro n
  induction n with
  | zero => intro a errors h1 h2 _; omega
  | succ n ih =>
    intro a errors h1 h2 hall
    rw [List.range'_succ]
    have ha := hall a le_rfl h2
    cases ho : outcome a with
    | ok r => rw [ho] at ha; simp [AttemptOutcome.isOk] at ha
    | err m =>
      simp only [analyzeGo, ho]
      by_cases hm : a = max_retries
      · have hn : n = 0 := by omega
        subst hn
        subst hm
        simp [ho, AttemptOutcome.msg]
      · simp only [if_neg hm]
        rw [ih (a + 1) (errors ++ [m]) (by omega) (by omega)
          (fun i hi1 hi2 => hall i (by omega) hi2)]
        simp [ho, AttemptOutcome.msg]

/-- When the first successful attempt of the remaining consecutive range is
attempt `i`, the loop short-circuits with that attempt's result. -/
theorem analyzeGo_first_ok (outcome : Nat → AttemptOutcome) (max_retries : Nat)
    (r : AnalysisResult) :
    ∀ n a errors i, a ≤ i → i < a + n → a + n = max_retries + 1 →
      outcome i = .ok r → (∀ j, a ≤ j → j < i → (outcome j).isOk = false) →
      analyzeGo outcome max_retries (List.range' a n) errors = .ok (some r) := by
  intro n
  induction n with
  | zero => intro a errors i h1 h2 _ _ _; omega
  | succ n ih =>
    intro a errors i h1 h2 h3 hok hprev
    rw [List.range'_succ]
    by_cases hai : a = i
    · subst hai
      simp [analyzeGo, hok]
    · have hlt : a < i := lt_of_le_of_ne h1 hai
      have ha := hprev a le_rfl hlt
      cases ho : outcome a with
      | ok r2 => rw [ho] at ha; simp [AttemptOutcome.isOk] at ha
      | err m =>
        simp only [analyzeGo, ho]
        have hm : a ≠ max_retries := by omega
        simp only [if_neg hm]
        exact ih (a + 1) (errors ++ [m]) i (by omega) (by omega) (by omega) hok
          (fun j hj1 hj2 => hprev j (by omega) hj2)

/-- C1: for every non-empty, non-whitespace input, `analyze_prompt` either
short-circuits at the first successful attempt and returns its schema-valid
result, or — when all `max_retries + 1` attempts fail — raises the analysis
failure carrying the error messages of every attempt, exactly
`max_retries + 1` of them; a partially-valid result is never returned. -/
theorem C1_analyze_retry_contract (outcome : Nat → AttemptOutcome) (max_retries : Nat)
    (user_prompt : String) (hne : stripEmpty user_prompt = false)
    (hvalid : ∀ i r, outcome i = .ok r → schemaValid r) :
    (∃ i r, i ≤ max_retries ∧ outcome i = .ok r ∧
        (∀ j, j < i → (outcome j).isOk = false) ∧
        analyze_prompt outcome max_retries user_prompt = .ok (some r) ∧ schemaValid r)
    ∨ ((∀ i, i ≤ max_retries → (outcome i).isOk = false) ∧
        analyze_prompt outcome max_retries user_prompt =
          .error (.analysisFailure
            ((List.range (max_retries + 1)).map fun i => (outcome i).msg)) ∧
        ((List.range (max_retries + 1)).map fun i => (outcome i).msg).length
          = max_retries + 1) := by
  have hap : analyze_prompt outcome max_retries user_prompt
      = analyzeGo outcome max_retries (List.range (max_retries + 1)) [] := by
    simp [analyze_prompt, hne]
  by_cases h : ∃ i, i ≤ max_retries ∧ (outcome i).isOk = true
  · left
    obtain ⟨hle, hok⟩ := Nat.find_spec h
    have hprevAll : ∀ j, j < Nat.find h → (outcome j).isOk = false := by
      intro j hj
      have hmin := Nat.find_min h hj
      have hjle : j ≤ max_retries := le_trans hj.le hle
      cases hjo : (outcome j).isOk with
      | false => rfl
      | true => exact absurd ⟨hjle, hjo⟩ hmin
    cases ho : outcome (Nat.find h) with
    | err m => rw [ho] at hok; simp [AttemptOutcome.isOk] at hok
    | ok r =>
      refine ⟨Nat.find h, r, hle, ho, hprevAll, ?_, hvalid _ r ho⟩
      rw [hap, List.range_eq_range']
      exact analyzeGo_first_ok outcome max_retries r (max_retries + 1) 0 [] (Nat.find h)
        (Nat.zero_le _) (by omega) (by omega) ho (fun j _ hj2 => hprevAll j hj2)
  · right
    push_neg at h
    have hall : ∀ i, i ≤ max_retries → (outcome i).isOk = false := by
      intro i hi
      cases hio : (outcome i).isOk with
      | false => rfl
      | true => exact absurd hio (h i hi)
    refine ⟨hall, ?_, ?_⟩
    · rw [hap, List.range_eq_range']
      rw [analyzeGo_all_err outcome max_retries (max_retries + 1) 0 [] (by omega)
        (by omega) (fun i _ hi2 => hall i hi2)]
      simp
    · simp

/-- Witness for C1 at `max_retries = 2` with an oracle whose three attempts all
fail: the failure carries exactly three messages. -/
theorem C1_analyze_retry_contract_witness :
    stripEmpty "hello" = false ∧
    ((∃ i r, i ≤ 2 ∧ outcomeAllFail i = .ok r ∧
        (∀ j, j < i → (outcomeAllFail j).isOk = false) ∧
        analyze_prompt outcomeAllFail 2 "hello" = .ok (some r) ∧ schemaValid r)
     ∨ ((∀ i, i ≤ 2 → (outcomeAllFail i).isOk = false) ∧
        analyze_prompt outcomeAllFail 2 "hello" =
          .error (.analysisFailure
            ((List.range 3).map fun i => (outcomeAllFail i).msg)) ∧
        ((List.range 3).map fun i => (outcomeAllFail i).msg).length = 3)) :=
  ⟨by decide,
   C1_analyze_retry_contract outcomeAllFail 2 "hello" (by decide)
     (fun i r h => by simp [outcomeAllFail] at h)⟩

/-! ## Lemmas about the prioritizer -/

/-- Inserting permutes: the result holds exactly the inserted element and the
old ones. -/
theorem insertByPriority_perm (x : MissingInfo) (l : List MissingInfo) :
    List.Perm (insertByPriority x l) (x :: l) := by
  induction l with
  | nil => simp [insertByPriority]
  | cons y ys ih =>
    simp only [insertByPriority]
    by_cases h : x.priority < y.priority
    · rw [if_pos h]
      exact (ih.cons y).trans (List.Perm.swap x y ys)
    · rw [if_neg h]

/-- The sort permutes its input. -/
theorem sortByPriorityDesc_perm (l : List MissingInfo) :
    List.Perm (sortByPriorityDesc l) l := by
  induction l with
  | nil => simp [sortByPriorityDesc]
  | cons x xs ih =>
    simp only [sortByPriorityDesc]
    exact (insertByPriority_perm x (sortByPriorityDesc xs)).trans (ih.cons x)

/-- Inserting commutes with filtering on one priority value: the inserted
element lands before every stored element of its own priority. -/
theorem insertByPriority_filter (x : MissingInfo) (l : List MissingInfo) (p : Nat) :
    (insertByPriority x l).filter (fun m => m.priority == p) =
      (x :: l).filter (fun m => m.priority == p) := by
  induction l with
  | nil => rfl
  | cons y ys ih =>
    simp only [insertByPriority]
    by_cases h : x.priority < y.priority
    · rw [if_pos h]
      by_cases hx : x.priority = p
      · by_cases hy : y.priority = p
        · exact absurd h (by omega)
        · simp [List.filter_cons, beq_iff_eq, hx, hy, ih]
      · by_cases hy : y.priority = p
        · simp [List.filter_cons, beq_iff_eq, hx, hy, ih]
        · simp [List.filter_cons, beq_iff_eq, hx, hy, ih]
    · rw [if_neg h]

/-- The sort is stable: for each priority value, filtering the output on that
value gives exactly the input's elements of that value, in input order. -/
theorem sortByPriorityDesc_filter (l : List MissingInfo) (p : Nat) :
    (sortByPriorityDesc l).filter (fun m => m.priority == p) =
      l.filter (fun m => m.priority == p) := by
  induction l with
  | nil => rfl
  | cons x xs ih =>
    simp only [sortByPriorityDesc]
    rw [insertByPriority_filter]
    simp only [List.filter_cons, ih]

/-- Inserting preserves descending order. -/
theorem insertByPriority_pairwise (x : MissingInfo) (l : List MissingInfo)
    (h : List.Pairwise (fun a b => b.priority ≤ a.priority) l) :
    List.Pairwise (fun a b => b.priority ≤ a.priority) (insertByPriority x l) := by
  induction l with
  | nil => simp [insertByPriority]
  | cons y ys ih =>
    rw [List.pairwise_cons] at h
    obtain ⟨hy, hys⟩ := h
    simp only [insertByPriority]
    by_cases hlt : x.priority < y.priority
    · rw [if_pos hlt]
      rw [List.pairwise_cons]
      refine ⟨?_, ih hys⟩
      intro z hz
      rw [(insertByPriority_perm x ys).mem_iff] at hz
      rcases List.mem_cons.mp hz with rfl | hz
      · omega
      · exact hy z hz
    · rw [if_neg hlt]
      rw [List.pairwise_cons]
      refine ⟨?_, List.pairwise_cons.mpr ⟨hy, hys⟩⟩
      intro z hz
      rcases List.mem_cons.mp hz with rfl | hz
      · omega
      · exact le_trans (hy z hz) (by omega)

/-- The sort output is descending on priority. -/
theorem sortByPriorityDesc_pairwise (l : List MissingInfo) :
    List.Pairwise (fun a b => b.priority ≤ a.priority) (sortByPriorityDesc l) := by
  induction l with
  | nil => simp [sortByPriorityDesc]
  | cons x xs ih =>
    simp only [sortByPriorityDesc]
    exact insertByPriority_pairwise x _ ih

/-- C7: `prioritize_missing_info` returns the `missing_info` list sorted by
priority in descending order, and the sort is stable — for every priority
value the items of that priority appear in the output in their input order. -/
theorem C7_prioritize_sorted_stable (result : AnalysisResult) :
    List.Perm (prioritize_missing_info result) result.missing_info ∧
    List.Pairwise (fun a b => b.priority ≤ a.priority) (prioritize_missing_info result) ∧
    ∀ p, (prioritize_missing_info result).filter (fun m => m.priority == p) =
        result.missing_info.filter (fun m => m.priority == p) :=
  ⟨sortByPriorityDesc_perm _, sortByPriorityDesc_pairwise _,
    fun p => sortByPriorityDesc_filter _ p⟩

/-- C9 (code bug): on the requirements dict with an unrecognized label
followed by the literal label `unknown`, the recognized-`unknown` assignment
overwrites the bucket into which the unrecognized label's requirements had
been folded, so requirement `"a"` is discarded from every bucket of the
output even though it occurs in the input. -/
theorem C9_unknown_overwrite_discards :
    extract_requirements_by_type resWeird =
      { functional := [], non_functional := [], constraint := [], unknown := ["b"] } ∧
    "a" ∉ (extract_requirements_by_type resWeird).functional ∧
    "a" ∉ (extract_requirements_by_type resWeird).non_functional ∧
    "a" ∉ (extract_requirements_by_type resWeird).constraint ∧
    "a" ∉ (extract_requirements_by_type resWeird).unknown ∧
    "a" ∈ (resWeird.requirements.map Prod.snd).flatten := by decide

/-! ## Lemmas about the API handlers -/

/-- `send_message` on an existing conversation never reports not-found: the
404s raised inside the handler body are swallowed by the blanket exception
handler and resurface as 500s. -/
theorem send_message_some_ne_notFound (user : String) (c : ConversationState)
    (msg fresh_id content : String) (repo : String → Option ProjectSpecification) :
    send_message user (some c) msg fresh_id content repo ≠ .error .notFound := by
  intro h
  simp only [send_message] at h
  by_cases hu : c.user_id ≠ user
  · rw [if_pos hu] at h
    simp at h
  · rw [if_neg hu] at h
    cases hst : c.stage with
    | COLLECTING =>
      rw [hst] at h
      cases hq : (add_user_message c msg).open_questions <;> simp [hq] at h
    | CLARIFYING =>
      rw [hst] at h
      cases hq : c.open_questions with
      | nil => simp [hq] at h
      | cons q rest => cases rest <;> simp [hq] at h
    | GENERATING =>
      rw [hst] at h
      simp at h
    | COMPLETED =>
      rw [hst] at h
      cases hsp : c.spec_id.bind repo <;> simp [hsp] at h

/-- `get_specification` on an existing specification never reports
not-found. -/
theorem get_specification_some_ne_notFound (user : String) (s : ProjectSpecification) :
    get_specification user (some s) ≠ .error .notFound := by
  intro h
  simp only [get_specification] at h
  by_cases hu : s.user_id ≠ user
  · rw [if_pos hu] at h
    simp at h
  · rw [if_neg hu] at h
    simp at h

/-- C8: when the stored resource exists but its owner differs from the caller,
`send_message` and `get_specification` both fail with the forbidden error, and
the not-found error arises only when the looked-up resource is absent. -/
theorem C8_ownership_errors (user : String) (c : ConversationState)
    (s : ProjectSpecification) (msg fresh_id content : String)
    (repo : String → Option ProjectSpecification)
    (hc : c.user_id ≠ user) (hs : s.user_id ≠ user) :
    send_message user (some c) msg fresh_id content repo = .error .forbidden ∧
    get_specification user (some s) = .error .forbidden ∧
    (∀ conv?, send_message user conv? msg fresh_id content repo = .error .notFound →
        conv? = none) ∧
    (∀ spec?, get_specification user spec? = .error .notFound → spec? = none) := by
  refine ⟨?_, ?_, ?_, ?_⟩
  · simp [send_message, hc]
  · simp [get_specification, hs]
  · intro conv? h
    cases conv? with
    | none => rfl
    | some c' =>
      exact absurd h (send_message_some_ne_notFound user c' msg fresh_id content repo)
  · intro spec? h
    cases spec? with
    | none => rfl
    | some s' => exact absurd h (get_specification_some_ne_notFound user s')

/-- Witness for C8: caller `mallory` against alice's conversation and bob's
specification. -/
theorem C8_ownership_errors_witness :
    send_message "mallory" (some convCollecting) "hi" "spec-1" "content" emptyRepo
        = .error .forbidden ∧
    get_specification "mallory" (some specOfBob) = .error .forbidden ∧
    (∀ conv?, send_message "mallory" conv? "hi" "spec-1" "content" emptyRepo
        = .error .notFound → conv? = none) ∧
    (∀ spec?, get_specification "mallory" spec? = .error .notFound → spec? = none) :=
  C8_ownership_errors "mallory" convCollecting specOfBob "hi" "spec-1" "content"
    emptyRepo (by decide) (by decide)

/-- C10: a message for a conversation stored as CLARIFYING with an empty
question queue hits the unguarded `open_questions[0]` and the request fails
(500 via the blanket handler) instead of transitioning to GENERATING. -/
theorem C10_clarifying_empty_queue_fails (user msg fresh_id content : String)
    (repo : String → Option ProjectSpecification) (c : ConversationState)
    (hstage : c.stage = ConversationStage.CLARIFYING)
    (hq : c.open_questions = [])
    (huser : c.user_id = user) :
    send_message user (some c) msg fresh_id content repo = .error .internalError := by
  simp [send_message, huser, hstage, hq]

/-- Witness for C10 at the concrete empty-queue CLARIFYING conversation. -/
theorem C10_clarifying_empty_queue_fails_witness :
    send_message "alice" (some convClarifyEmpty) "hi" "spec-1" "content" emptyRepo
      = .error .internalError :=
  C10_clarifying_empty_queue_fails "alice" "hi" "spec-1" "content" emptyRepo
    convClarifyEmpty (by decide) (by decide) (by decide)

/-! ## Branch characterizations of `send_message` -/

/-- COLLECTING with pending questions: append the message, move to CLARIFYING
and surface the head question. -/
theorem send_collecting_with_questions (user msg fresh_id content : String)
    (repo : String → Option ProjectSpecification) (c : ConversationState)
    (q : String) (qs : List String)
    (hu : c.user_id = user) (hst : c.stage = ConversationStage.COLLECTING)
    (hq : c.open_questions = q :: qs) :
    send_message user (some c) msg fresh_id content repo = .ok
      { response :=
          { conversation_id := c.id
            message := q
            stage := ConversationStage.CLARIFYING
            awaiting_user := true
            spec_ready := false
            spec_id := none }
        writes := [{ c with message_log := c.message_log ++ [msg] },
                   { c with message_log := c.message_log ++ [msg],
                            stage := ConversationStage.CLARIFYING }]
        savedSpecs := []
        final := { c with message_log := c.message_log ++ [msg],
                          stage := ConversationStage.CLARIFYING } } := by
  simp [send_message, add_user_message, hu, hst, hq]

/-- COLLECTING with no pending questions: append the message, then run the
whole GENERATING edge — a specification is created, saved, and attached, and
the conversation completes within the same request. -/
theorem send_collecting_no_questions (user msg fresh_id content : String)
    (repo : String → Option ProjectSpecification) (c : ConversationState)
    (hu : c.user_id = user) (hst : c.stage = ConversationStage.COLLECTING)
    (hq : c.open_questions = []) :
    send_message user (some c) msg fresh_id content repo = .ok
      { response :=
          { conversation_id := c.id
            message := "specification completed"
            stage := ConversationStage.COMPLETED
            awaiting_user := false
            spec_ready := true
            spec_id := some fresh_id }
        writes := [{ c with message_log := c.message_log ++ [msg] },
                   { c with message_log := c.message_log ++ [msg],
                            stage := ConversationStage.GENERATING },
                   { c with message_log := c.message_log ++ [msg],
                            stage := ConversationStage.COMPLETED,
                            spec_id := some fresh_id }]
        savedSpecs := [{ id := fresh_id
                         user_id := c.user_id
                         project_name := c.project_name.getD "Untitled Project"
                         content := content
                         version := 1 }]
        final := { c with message_log := c.message_log ++ [msg],
                          stage := ConversationStage.COMPLETED,
                          spec_id := some fresh_id } } := by
  simp [send_message, add_user_message, generate_specification, hu, hst, hq]

/-- CLARIFYING with at least two pending questions: record the answer to the
head question, pop it, stay in CLARIFYING and surface the next question. -/
theorem send_clarifying_more (user msg fresh_id content : String)
    (repo : String → Option ProjectSpecification) (c : ConversationState)
    (q q2 : String) (qs : List String)
    (hu : c.user_id = user) (hst : c.stage = ConversationStage.CLARIFYING)
    (hq : c.open_questions = q :: q2 :: qs) :
    send_message user (some c) msg fresh_id content repo = .ok
      { response :=
          { conversation_id := c.id
            message := q2
            stage := ConversationStage.CLARIFYING
            awaiting_user := true
            spec_ready := false
            spec_id := none }
        writes := [{ c with answers := c.answers ++ [(q, msg)],
                            open_questions := q2 :: qs }]
        savedSpecs := []
        final := { c with answers := c.answers ++ [(q, msg)],
                          open_questions := q2 :: qs } } := by
  simp [send_message, answer_question, hu, hst, hq]

/-- CLARIFYING with exactly one pending question: record the answer, pop the
queue empty, then run the whole GENERATING edge to COMPLETED. -/
theorem send_clarifying_last (user msg fresh_id content : String)
    (repo : String → Option ProjectSpecification) (c : ConversationState)
    (q : String)
    (hu : c.user_id = user) (hst : c.stage = ConversationStage.CLARIFYING)
    (hq : c.open_questions = [q]) :
    send_message user (some c) msg fresh_id content repo = .ok
      { response :=
          { conversation_id := c.id
            message := "specification completed"
            stage := ConversationStage.COMPLETED
            awaiting_user := false
            spec_ready := true
            spec_id := some fresh_id }
        writes := [{ c with answers := c.answers ++ [(q, msg)],
                            open_questions := [] },
                   { c with answers := c.answers ++ [(q, msg)],
                            open_questions := [],
                            stage := ConversationStage.GENERATING },
                   { c with answers := c.answers ++ [(q, msg)],
                            open_questions := [],
                            stage := ConversationStage.COMPLETED,
                            spec_id := some fresh_id }]
        savedSpecs := [{ id := fresh_id
                         user_id := c.user_id
                         project_name := c.project_name.getD "Untitled Project"
                         content := content
                         version := 1 }]
        final := { c with answers := c.answers ++ [(q, msg)],
                          open_questions := [],
                          stage := ConversationStage.COMPLETED,
                          spec_id := some fresh_id } } := by
  simp [send_message, answer_question, generate_specification, hu, hst, hq]

/-- COMPLETED with the attached specification present in the repository: a
read-only response, no writes, no new specification. -/
theorem send_completed_found (user msg fresh_id content : String)
    (repo : String → Option ProjectSpecification) (c : ConversationState)
    (s : ProjectSpecification)
    (hu : c.user_id = user) (hst : c.stage = ConversationStage.COMPLETED)
    (hs : c.spec_id.bind repo = some s) :
    send_message user (some c) msg fresh_id content repo = .ok
      { response :=
          { conversation_id := c.id
            message := "specification is complete"
            stage := ConversationStage.COMPLETED
            awaiting_user := false
            spec_ready := true
            spec_id := some s.id }
        writes := []
        savedSpecs := []
        final := c } := by
  simp [send_message, hu, hst, hs]

/-! ## Claims about the state machine -/

/-- C2 counterexample: extraction completing with ZERO missing-information
items on the freshly created COLLECTING conversation still sets the stage to
CLARIFYING, never GENERATING. -/
theorem C2_zero_missing_still_clarifying :
    convCollecting.stage = ConversationStage.COLLECTING ∧
    resEmpty.missing_info = [] ∧
    (analyze_initial_prompt (some convCollecting) resEmpty).map ConversationState.stage
      = some ConversationStage.CLARIFYING ∧
    (analyze_initial_prompt (some convCollecting) resEmpty).map ConversationState.stage
      ≠ some ConversationStage.GENERATING := by decide

/-- C2 (amended): when extraction completes for a COLLECTING conversation, the
Prioritizer's ordered question list is installed as `open_questions` and the
next stage is CLARIFYING unconditionally — also when extraction yields zero
missing-information items; the conversation never moves to GENERATING at this
point. -/
theorem C2_extraction_installs_questions (c : ConversationState) (a : AnalysisResult)
    (_hst : c.stage = ConversationStage.COLLECTING) :
    ∃ c', analyze_initial_prompt (some c) a = some c' ∧
      c'.open_questions = (prioritize_missing_info a).map (fun i => i.question) ∧
      c'.analyzed = true ∧
      c'.stage = ConversationStage.CLARIFYING ∧
      c'.stage ≠ ConversationStage.GENERATING :=
  ⟨_, rfl, rfl, rfl, rfl, by simp⟩

/-- Witness for the amended C2 at the concrete fresh conversation and the
zero-missing-info extraction result. -/
theorem C2_extraction_installs_questions_witness :
    ∃ c', analyze_initial_prompt (some convCollecting) resEmpty = some c' ∧
      c'.open_questions = (prioritize_missing_info resEmpty).map (fun i => i.question) ∧
      c'.analyzed = true ∧
      c'.stage = ConversationStage.CLARIFYING ∧
      c'.stage ≠ ConversationStage.GENERATING :=
  C2_extraction_installs_questions convCollecting resEmpty (by decide)

/-- C3 counterexample: a message for the freshly created COLLECTING
conversation (extraction not yet completed, so no questions installed) does
NOT merely append to the log and stay in COLLECTING: the handler generates a
specification and completes the conversation within the same request. -/
theorem C3_collecting_message_completes :
    convCollecting.stage = ConversationStage.COLLECTING ∧
    convCollecting.analyzed = false ∧
    convCollecting.open_questions = [] ∧
    ((send_message "alice" (some convCollecting) "more info" "spec-1" "content"
        emptyRepo).toOption.map (fun res => (res.final.stage, res.savedSpecs.length)))
      = some (ConversationStage.COMPLETED, 1) := by decide

/-- C3 (amended): processing a user message for a COLLECTING conversation
appends the message to the log and then always advances the stage — to
CLARIFYING when open questions exist, otherwise through GENERATING to
COMPLETED with a freshly generated specification; it never remains in
COLLECTING. -/
theorem C3_collecting_message_advances (user msg fresh_id content : String)
    (repo : String → Option ProjectSpecification) (c : ConversationState)
    (hu : c.user_id = user) (hst : c.stage = ConversationStage.COLLECTING) :
    ∃ res, send_message user (some c) msg fresh_id content repo = .ok res ∧
      res.final.message_log = c.message_log ++ [msg] ∧
      res.final.stage ≠ ConversationStage.COLLECTING ∧
      (c.open_questions ≠ [] →
        res.final.stage = ConversationStage.CLARIFYING ∧ res.savedSpecs = []) ∧
      (c.open_questions = [] →
        res.final.stage = ConversationStage.COMPLETED ∧
        res.final.spec_id = some fresh_id ∧
        res.savedSpecs = [{ id := fresh_id
                            user_id := c.user_id
                            project_name := c.project_name.getD "Untitled Project"
                            content := content
                            version := 1 }]) := by
  cases hq : c.open_questions with
  | nil =>
    refine ⟨_, send_collecting_no_questions user msg fresh_id content repo c hu hst hq,
      rfl, by simp, ?_, ?_⟩
    · intro h; exact absurd rfl h
    · intro _; exact ⟨rfl, rfl, rfl⟩
  | cons q qs =>
    refine ⟨_, send_collecting_with_questions user msg fresh_id content repo c q qs hu hst hq,
      rfl, by simp, ?_, ?_⟩
    · intro _; exact ⟨rfl, rfl⟩
    · intro h; exact absurd h (by simp)

/-- Witness for the amended C3 at the concrete fresh conversation. -/
theorem C3_collecting_message_advances_witness :
    ∃ res, send_message "alice" (some convCollecting) "more info" "spec-1" "content"
        emptyRepo = .ok res ∧
      res.final.message_log = convCollecting.message_log ++ ["more info"] ∧
      res.final.stage ≠ ConversationStage.COLLECTING ∧
      (convCollecting.open_questions ≠ [] →
        res.final.stage = ConversationStage.CLARIFYING ∧ res.savedSpecs = []) ∧
      (convCollecting.open_questions = [] →
        res.final.stage = ConversationStage.COMPLETED ∧
        res.final.spec_id = some "spec-1" ∧
        res.savedSpecs = [{ id := "spec-1"
                            user_id := convCollecting.user_id
                            project_name := convCollecting.project_name.getD "Untitled Project"
                            content := "content"
                            version := 1 }]) :=
  C3_collecting_message_advances "alice" "more info" "spec-1" "content" emptyRepo
    convCollecting (by decide) (by decide)

/-- A conversation whose stage is not COMPLETED has, under the invariant, a
null `spec_id`. -/
theorem specInvariant_spec_id_none (c : ConversationState)
    (hinv : specInvariant c) (h : ¬ c.stage = ConversationStage.COMPLETED) :
    c.spec_id = none := by
  cases hsp : c.spec_id with
  | none => rfl
  | some v => exact absurd (hinv.mpr (by rw [hsp]; rfl)) h

/-- C4 counterexample: the background task `analyze_initial_prompt` applied to
an already completed conversation — reachable when the background extraction
finishes only after a COLLECTING-stage message has already driven the
conversation through GENERATING to COMPLETED — persists a CLARIFYING state
that still carries the non-null `spec_id`, breaking the invariant. -/
theorem C4_analyze_breaks_invariant :
    specInvariant convCompleted ∧
    ∃ c', analyze_initial_prompt (some convCompleted) resEmpty = some c' ∧
      c'.stage = ConversationStage.CLARIFYING ∧
      c'.spec_id = some "spec-0" ∧
      ¬ specInvariant c' :=
  ⟨by decide, _, rfl, by decide, by decide, by decide⟩

/-- C4 (amended): every state `send_message` persists satisfies the invariant
`stage = COMPLETED iff spec_id non-null` whenever the fetched conversation
does, and the state persisted by `analyze_initial_prompt` satisfies it
whenever the conversation's `spec_id` is still null; applied to a conversation
with a non-null `spec_id`, `analyze_initial_prompt` is the violating case. -/
theorem C4_invariant_preservation (user msg fresh_id content : String)
    (repo : String → Option ProjectSpecification) (c : ConversationState)
    (a : AnalysisResult) (hinv : specInvariant c) :
    (∀ res, send_message user (some c) msg fresh_id content repo = .ok res →
        ∀ w ∈ res.writes, specInvariant w) ∧
    (c.spec_id = none →
        ∀ c', analyze_initial_prompt (some c) a = some c' → specInvariant c') := by
  constructor
  · intro res hres w hw
    by_cases hu : c.user_id = user
    case neg =>
      rw [show send_message user (some c) msg fresh_id content repo = .error .forbidden
        from by simp [send_message, hu]] at hres
      simp at hres
    case pos =>
      cases hst : c.stage with
      | COLLECTING =>
        have hnone : c.spec_id = none :=
          specInvariant_spec_id_none c hinv (by simp [hst])
        cases hq : c.open_questions with
        | nil =>
          rw [send_collecting_no_questions user msg fresh_id content repo c hu hst hq]
            at hres
          obtain rfl := Except.ok.inj hres
          simp only [List.mem_cons, List.not_mem_nil, or_false] at hw
          rcases hw with rfl | rfl | rfl
          · simp [specInvariant, hst, hnone]
          · simp [specInvariant, hnone]
          · simp [specInvariant]
        | cons q qs =>
          rw [send_collecting_with_questions user msg fresh_id content repo c q qs hu hst hq]
            at hres
          obtain rfl := Except.ok.inj hres
          simp only [List.mem_cons, List.not_mem_nil, or_false] at hw
          rcases hw with rfl | rfl
          · simp [specInvariant, hst, hnone]
          · simp [specInvariant, hnone]
      | CLARIFYING =>
        have hnone : c.spec_id = none :=
          specInvariant_spec_id_none c hinv (by simp [hst])
        cases hq : c.open_questions with
        | nil =>
          rw [show send_message user (some c) msg fresh_id content repo
              = .error .internalError from by simp [send_message, hu, hst, hq]] at hres
          simp at hres
        | cons q rest =>
          cases rest with
          | nil =>
            rw [send_clarifying_last user msg fresh_id content repo c q hu hst hq] at hres
            obtain rfl := Except.ok.inj hres
            simp only [List.mem_cons, List.not_mem_nil, or_false] at hw
            rcases hw with rfl | rfl | rfl
            · simp [specInvariant, hst, hnone]
            · simp [specInvariant, hnone]
            · simp [specInvariant]
          | cons q2 qs =>
            rw [send_clarifying_more user msg fresh_id content repo c q q2 qs hu hst hq]
              at hres
            obtain rfl := Except.ok.inj hres
            simp only [List.mem_cons, List.not_mem_nil, or_false] at hw
            rcases hw with rfl
            simp [specInvariant, hst, hnone]
      | GENERATING =>
        rw [show send_message user (some c) msg fresh_id content repo
            = .error .internalError from by simp [send_message, hu, hst]] at hres
        simp at hres
      | COMPLETED =>
        cases hsp : c.spec_id.bind repo with
        | none =>
          rw [show send_message user (some c) msg fresh_id content repo
              = .error .internalError from by simp [send_message, hu, hst, hsp]] at hres
          simp at hres
        | some s =>
          rw [send_completed_found user msg fresh_id content repo c s hu hst hsp] at hres
          obtain rfl := Except.ok.inj hres
          simp at hw
  · intro hnone c' hc'
    simp only [analyze_initial_prompt] at hc'
    obtain rfl := Option.some.inj hc'
    simp [specInvariant, hnone]

/-- Witness for the amended C4 at the concrete fresh conversation, which
satisfies the invariant. -/
theorem C4_invariant_preservation_witness :
    (∀ res, send_message "alice" (some convCollecting) "hi" "spec-1" "content"
          emptyRepo = .ok res → ∀ w ∈ res.writes, specInvariant w) ∧
    (convCollecting.spec_id = none →
        ∀ c', analyze_initial_prompt (some convCollecting) resEmpty = some c' →
          specInvariant c') :=
  C4_invariant_preservation "alice" "hi" "spec-1" "content" emptyRepo convCollecting
    resEmpty (by decide)

/-- C5 counterexample: triggering the Assembly Orchestrator twice for the same
conversation (as a retried trigger would) creates two specifications with two
DISTINCT ids, and the second trigger overwrites the attached `spec_id` instead
of being a no-op or a rejection. -/
theorem C5_double_trigger_two_ids :
    (triggerAssembly convGenerating "spec-a" "content").1.id = "spec-a" ∧
    (triggerAssembly convGenerating "spec-a" "content").2.spec_id = some "spec-a" ∧
    (triggerAssembly (triggerAssembly convGenerating "spec-a" "content").2
        "spec-b" "content").1.id = "spec-b" ∧
    (triggerAssembly (triggerAssembly convGenerating "spec-a" "content").2
        "spec-b" "content").2.spec_id = some "spec-b" ∧
    (triggerAssembly convGenerating "spec-a" "content").1.id ≠
      (triggerAssembly (triggerAssembly convGenerating "spec-a" "content").2
        "spec-b" "content").1.id := by decide

/-- C5 (amended): within `send_message` the COMPLETED stage never re-triggers
assembly — a further message performs no conversation writes and saves no
specification, so the sequential message flow writes `spec_id` at most once —
but `generate_specification` itself has no write-once guard: called twice with
the distinct fresh ids the uuid source supplies, it produces two
specifications with distinct ids. -/
theorem C5_write_once_by_stage_guard_only (user msg fresh_id content : String)
    (repo : String → Option ProjectSpecification) (c : ConversationState)
    (hst : c.stage = ConversationStage.COMPLETED) :
    (∀ res, send_message user (some c) msg fresh_id content repo = .ok res →
        res.writes = [] ∧ res.savedSpecs = [] ∧ res.final = c) ∧
    (∀ (c' : ConversationState) (a b content' : String), a ≠ b →
        (generate_specification c' a content').id ≠
          (generate_specification c' b content').id) := by
  constructor
  · intro res hres
    by_cases hu : c.user_id = user
    · cases hsp : c.spec_id.bind repo with
      | none =>
        rw [show send_message user (some c) msg fresh_id content repo
            = .error .internalError from by simp [send_message, hu, hst, hsp]] at hres
        simp at hres
      | some s =>
        rw [send_completed_found user msg fresh_id content repo c s hu hst hsp] at hres
        obtain rfl := Except.ok.inj hres
        exact ⟨rfl, rfl, rfl⟩
    · rw [show send_message user (some c) msg fresh_id content repo = .error .forbidden
        from by simp [send_message, hu]] at hres
      simp at hres
  · intro c' a b content' hab
    simpa [generate_specification] using hab

/-- Witness for the amended C5 at the completed conversation whose
specification is in the repository. -/
theorem C5_write_once_by_stage_guard_only_witness :
    (∀ res, send_message "alice" (some convCompleted) "hi" "spec-1" "content"
          repoWithSpecZero = .ok res →
        res.writes = [] ∧ res.savedSpecs = [] ∧ res.final = convCompleted) ∧
    (∀ (c' : ConversationState) (a b content' : String), a ≠ b →
        (generate_specification c' a content').id ≠
          (generate_specification c' b content').id) :=
  C5_write_once_by_stage_guard_only "alice" "hi" "spec-1" "content" repoWithSpecZero
    convCompleted (by decide)

/-- Answering all pending questions of a CLARIFYING conversation one by one,
in queue order, always ends with an empty queue in the COMPLETED stage (the
final answer runs the GENERATING edge in the same request). -/
theorem drain_clarifying_completes (user answer fresh_id content : String)
    (repo : String → Option ProjectSpecification) :
    ∀ n (c : ConversationState), c.stage = ConversationStage.CLARIFYING →
      c.user_id = user → c.open_questions.length = n + 1 →
      ∃ c', drain user answer fresh_id content repo (n + 1) c = .ok c' ∧
        c'.stage = ConversationStage.COMPLETED ∧ c'.open_questions = [] := by
  intro n
  induction n with
  | zero =>
    intro c hst hu hlen
    obtain ⟨q, hq⟩ : ∃ q, c.open_questions = [q] := by
      cases hqs : c.open_questions with
      | nil => rw [hqs] at hlen; exact absurd hlen (by simp)
      | cons q rest =>
        cases rest with
        | nil => exact ⟨q, rfl⟩
        | cons q2 qs => rw [hqs] at hlen; exact absurd hlen (by simp)
    refine ⟨{ c with answers := c.answers ++ [(q, answer)], open_questions := [], stage := ConversationStage.COMPLETED, spec_id := some fresh_id }, ?_, rfl, rfl⟩
    simp only [drain, send_clarifying_last user answer fresh_id content repo c q hu hst hq]
  | succ n ih =>
    intro c hst hu hlen
    obtain ⟨q, q2, qs, hq⟩ : ∃ q q2 qs, c.open_questions = q :: q2 :: qs := by
      cases hqs : c.open_questions with
      | nil => rw [hqs] at hlen; exact absurd hlen (by simp)
      | cons q rest =>
        cases rest with
        | nil => rw [hqs] at hlen; simp at hlen
        | cons q2 qs => exact ⟨q, q2, qs, rfl⟩
    have hstep : drain user answer fresh_id content repo (n + 1 + 1) c
        = drain user answer fresh_id content repo (n + 1)
            { c with answers := c.answers ++ [(q, answer)],
                     open_questions := q2 :: qs } := by
      simp only [drain,
        send_clarifying_more user answer fresh_id content repo c q q2 qs hu hst hq]
    rw [hstep]
    refine ih _ hst hu ?_
    have : (q :: q2 :: qs).length = n + 1 + 1 := by rw [← hq]; exact hlen
    simpa using this

/-- C6 counterexample: in CLARIFYING with zero pending questions, the handler
does not record anything, pop anything, or move towards GENERATING — the
request fails on the unguarded head access. -/
theorem C6_zero_questions_not_recorded :
    convClarifyEmpty.stage = ConversationStage.CLARIFYING ∧
    convClarifyEmpty.open_questions = [] ∧
    send_message "alice" (some convClarifyEmpty) "my answer" "spec-2" "content"
        emptyRepo = .error .internalError :=
  ⟨by decide, by decide, rfl⟩

/-- C6 (amended): in CLARIFYING with at least one pending question, answering
targets `open_questions[0]`, records the (question, answer) pair, pops the
head, stays in CLARIFYING while the queue is non-empty, and — on the last
question — passes through a persisted GENERATING state with an empty queue and
ends COMPLETED; consequently answering all questions in queue order drains the
queue and completes.  With zero pending questions the operation instead fails
(see the counterexample). -/
theorem C6_answers_target_head_and_drain (user msg fresh_id content : String)
    (repo : String → Option ProjectSpecification) (c : ConversationState)
    (q : String) (rest : List String)
    (hst : c.stage = ConversationStage.CLARIFYING)
    (hq : c.open_questions = q :: rest)
    (hu : c.user_id = user) :
    (∃ res, send_message user (some c) msg fresh_id content repo = .ok res ∧
        res.final.answers = c.answers ++ [(q, msg)] ∧
        res.final.open_questions = rest ∧
        (rest ≠ [] → res.final.stage = ConversationStage.CLARIFYING ∧
          res.savedSpecs = []) ∧
        (rest = [] → res.final.stage = ConversationStage.COMPLETED ∧
          ∃ w ∈ res.writes, w.stage = ConversationStage.GENERATING ∧
            w.open_questions = [])) ∧
    (∃ c', drain user msg fresh_id content repo c.open_questions.length c = .ok c' ∧
        c'.stage = ConversationStage.COMPLETED ∧ c'.open_questions = []) := by
  constructor
  · cases rest with
    | nil =>
      refine ⟨_, send_clarifying_last user msg fresh_id content repo c q hu hst hq,
        rfl, rfl, ?_, ?_⟩
      · intro h; exact absurd rfl h
      · intro _
        refine ⟨rfl, { c with answers := c.answers ++ [(q, msg)], open_questions := [], stage := ConversationStage.GENERATING }, ?_, rfl, rfl⟩
        simp
    | cons q2 qs =>
      refine ⟨_, send_clarifying_more user msg fresh_id content repo c q q2 qs hu hst hq,
        rfl, rfl, ?_, ?_⟩
      · intro _; exact ⟨hst, rfl⟩
      · intro h; exact absurd h (by simp)
  · have hlen : c.open_questions.length = rest.length + 1 := by rw [hq]; rfl
    rw [hlen]
    exact drain_clarifying_completes user msg fresh_id content repo rest.length c hst hu hlen

/-- Witness for the amended C6 at the two-question clarifying conversation. -/
theorem C6_answers_target_head_and_drain_witness :
    (∃ res, send_message "alice" (some convClarifyTwo) "my answer" "spec-1" "content"
          emptyRepo = .ok res ∧
        res.final.answers = convClarifyTwo.answers ++ [("q1", "my answer")] ∧
        res.final.open_questions = ["q2"] ∧
        (["q2"] ≠ [] → res.final.stage = ConversationStage.CLARIFYING ∧
          res.savedSpecs = []) ∧
        (["q2"] = [] → res.final.stage = ConversationStage.COMPLETED ∧
          ∃ w ∈ res.writes, w.stage = ConversationStage.GENERATING ∧
            w.open_questions = [])) ∧
    (∃ c', drain "alice" "my answer" "spec-1" "content" emptyRepo
          convClarifyTwo.open_questions.length convClarifyTwo = .ok c' ∧
        c'.stage = ConversationStage.COMPLETED ∧ c'.open_questions = []) :=
  C6_answers_target_head_and_drain "alice" "my answer" "spec-1" "content" emptyRepo
    convClarifyTwo "q1" ["q2"] (by decide) (by decide) (by decide)
